import Mathlib

/-!
Verification of the noteburst client-facing API core (sqr-075 example code):
the request normalizer (PostNotebookRequest.get_ipynb_as_str, interface.py)
and the response projector (NotebookResponse.from_job_metadata,
serverinterface.py), as a shallow embedding.

Conventions of the embedding:
- Python datetimes are modelled as integers (an epoch offset); only equality
  and ordering of timestamps matter to the claims.
- The arq JobStatus enumeration is modelled with its five members.
- job.kwargs is the submission-parameters mapping (string keys to string
  values); a Python dict subscript that can raise KeyError is modelled with
  Except, so the projector is a fallible function.
- The FastAPI Request object enters the projector only through its url_for
  method, modelled as a function field from a route name and a job id to a
  URL string.
- Python's json.dumps and json.loads (standard library, called by the code
  but external to it) are modelled over a Json value type whose numbers are
  integers; json.dumps is modelled with its default settings: ensure_ascii
  escaping (including surrogate pairs and the short escapes), a comma-space
  item separator and a colon-space key separator.
-/

namespace Noteburst

/-- The arq job status enumeration (arq.jobs.JobStatus), imported by
interface.py: deferred, queued, in_progress, complete, not_found. -/
inductive JobStatus where
  | deferred
  | queued
  | in_progress
  | complete
  | not_found
deriving DecidableEq, Repr

/-- safir.arq.JobMetadata as consumed by from_job_metadata: the job id, the
enqueue time, the status, and the keyword-argument mapping recorded at
submission time (containing kernel_name and ipynb). -/
structure JobMetadata where
  id : String
  enqueue_time : Int
  status : JobStatus
  kwargs : List (String × String)
deriving DecidableEq, Repr

/-- safir.arq.JobResult as consumed by from_job_metadata: start and finish
times, the success flag, and the result payload. -/
structure JobResult where
  start_time : Int
  finish_time : Int
  success : Bool
  result : String
deriving DecidableEq, Repr

/-- The FastAPI request, seen by the projector only through url_for, which
maps a route name and the job-id path parameter to a URL. -/
structure Request where
  url_for : String → String → String

/-- The NotebookResponse pydantic model of interface.py: the client-visible
response document. Optional fields default to none, as the pydantic fields
default to None. -/
structure NotebookResponse where
  job_id : String
  kernel_name : String
  enqueue_time : Int
  status : JobStatus
  self_url : String
  source : Option String := none
  start_time : Option Int := none
  finish_time : Option Int := none
  success : Option Bool := none
  ipynb : Option String := none
deriving DecidableEq, Repr

/-- Python dict subscript d[k]: the value at the key, or a KeyError. -/
def dictGet (d : List (String × String)) (k : String) : Except String String :=
  match d.lookup k with
  | some v => Except.ok v
  | none => Except.error ("KeyError: " ++ k)

/-- NotebookResponse.from_job_metadata of serverinterface.py. Keyword
arguments of the cls(...) call are evaluated left to right, so the
kernel_name subscript is evaluated on every call, while the ipynb subscript
is evaluated only when include_source is true. -/
def NotebookResponse.from_job_metadata (job : JobMetadata) (request : Request)
    (include_source : Bool := false) (job_result : Option JobResult := none) :
    Except String NotebookResponse := do
  let kernel ← dictGet job.kwargs "kernel_name"
  let src ← if include_source then
      Except.map some (dictGet job.kwargs "ipynb")
    else Except.ok none
  Except.ok
    { job_id := job.id
      enqueue_time := job.enqueue_time
      status := job.status
      kernel_name := kernel
      source := src
      self_url := request.url_for "get_nbexec_job" job.id
      start_time := job_result.map JobResult.start_time
      finish_time := job_result.map JobResult.finish_time
      success := job_result.map JobResult.success
      ipynb := job_result.map JobResult.result }

/-! ## The Json value universe

The structured form of a submitted notebook (the dict arm of the
Union[str, dict[str, Any]] field) and the behavior of json.dumps and
json.loads on it. Numbers are modelled as integers; Python floats are
outside the embedding. -/

/-- A JSON value: null, booleans, integer numbers, strings, arrays and
objects (as association lists, preserving member order as Python dicts do). -/
inductive Json where
  | null
  | bool (b : Bool)
  | num (n : Int)
  | str (s : String)
  | arr (elements : List Json)
  | obj (members : List (String × Json))
deriving Repr

/-- The lowercase hexadecimal digit for a value below 16, as json.dumps
emits in a backslash-u escape. -/
def hexDigit (n : Nat) : Char :=
  if n < 10 then Char.ofNat (48 + n) else Char.ofNat (87 + n)

/-- Four hexadecimal digits of a code unit below 0x10000, most significant
first: the payload of one backslash-u escape. -/
def hexQuad (n : Nat) : List Char :=
  [hexDigit (n / 4096 % 16), hexDigit (n / 256 % 16),
   hexDigit (n / 16 % 16), hexDigit (n % 16)]

/-- One character as json.dumps (ensure_ascii=True, the default) writes it
inside a string literal: the two-character escapes for quote, backslash,
newline, tab, carriage return, backspace and form feed; printable ASCII
verbatim; everything else as backslash-u escapes, using a UTF-16 surrogate
pair for characters beyond the basic multilingual plane. -/
def escapeChar (c : Char) : List Char :=
  if c = '"' then ['\\', '"']
  else if c = '\\' then ['\\', '\\']
  else if c = '\n' then ['\\', 'n']
  else if c = '\t' then ['\\', 't']
  else if c = '\r' then ['\\', 'r']
  else if c = Char.ofNat 8 then ['\\', 'b']
  else if c = Char.ofNat 12 then ['\\', 'f']
  else if 32 ≤ c.toNat ∧ c.toNat ≤ 126 then [c]
  else if c.toNat < 65536 then '\\' :: 'u' :: hexQuad c.toNat
  else
    ('\\' :: 'u' :: hexQuad (55296 + (c.toNat - 65536) / 1024)) ++
      ('\\' :: 'u' :: hexQuad (56320 + (c.toNat - 65536) % 1024))

/-- A whole string literal as json.dumps writes it: quote, escaped
characters, quote. -/
def dumpsString (s : String) : List Char :=
  '"' :: (s.data.flatMap escapeChar ++ ['"'])

/-- The decimal digits of a natural number, most significant first. -/
def natDigits (n : Nat) : List Char :=
  if h : n < 10 then [Char.ofNat (48 + n)]
  else natDigits (n / 10) ++ [Char.ofNat (48 + n % 10)]
termination_by n
decreasing_by exact Nat.div_lt_self (by omega) (by omega)

/-- An integer as json.dumps writes it: an optional minus sign and the
decimal digits of the absolute value. -/
def intDigits (n : Int) : List Char :=
  if n < 0 then '-' :: natDigits n.natAbs else natDigits n.natAbs

mutual
/-- json.dumps with its default separators (comma-space between items,
colon-space after a key), as a character list. -/
def dumpsChars : Json → List Char
  | .num n => intDigits n
  | .str s => dumpsString s
  | .bool b => if b then ['t', 'r', 'u', 'e'] else ['f', 'a', 'l', 's', 'e']
  | .null => ['n', 'u', 'l', 'l']
  | .arr es => '[' :: (dumpsItems es ++ [']'])
  | .obj ms => Char.ofNat 123 :: (dumpsPairs ms ++ [Char.ofNat 125])
/-- The comma-space separated item list of an array. -/
def dumpsItems : List Json → List Char
  | [] => []
  | [e] => dumpsChars e
  | e :: e2 :: es => dumpsChars e ++ ',' :: ' ' :: dumpsItems (e2 :: es)
/-- The comma-space separated member list of an object; each member is an
escaped key, colon-space, and the value. -/
def dumpsPairs : List (String × Json) → List Char
  | [] => []
  | [(k, v)] => dumpsString k ++ ':' :: ' ' :: dumpsChars v
  | (k, v) :: m2 :: ms =>
      (dumpsString k ++ ':' :: ' ' :: dumpsChars v) ++ ',' :: ' ' :: dumpsPairs (m2 :: ms)
end

/-- json.dumps on a JSON value, with the default options. -/
def dumps (j : Json) : String := String.mk (dumpsChars j)

/-! ## A JSON parser modelling json.loads

Used to state the serialization round trip. The grammar covered is the one
json.dumps emits over the Json universe above: in particular numbers are
signed decimal integers (no fractions or exponents, which only arise from
Python floats, outside this embedding), and a string escape must denote a
Unicode scalar value (a backslash-u escape in the surrogate range must be
part of a well-formed surrogate pair; Python itself would build a lone
surrogate, which a Lean Char cannot carry). -/

/-- Is the character one of the four JSON whitespace characters. -/
def isJsonWs (c : Char) : Bool :=
  c.toNat = 32 || c.toNat = 9 || c.toNat = 10 || c.toNat = 13

/-- Is the character a decimal digit. -/
def isDecDigit (c : Char) : Bool :=
  48 ≤ c.toNat && c.toNat ≤ 57

/-- Drop leading JSON whitespace. -/
def skipWs (cs : List Char) : List Char := cs.dropWhile isJsonWs

/-- The input does not begin with a decimal digit (so it cannot extend a
number written just before it). -/
def headNotDigit (cs : List Char) : Bool :=
  match cs.head? with
  | none => true
  | some c => !isDecDigit c

/-- The value of one hexadecimal digit character, upper or lower case. -/
def hexVal (c : Char) : Option Nat :=
  if 48 ≤ c.toNat ∧ c.toNat ≤ 57 then some (c.toNat - 48)
  else if 97 ≤ c.toNat ∧ c.toNat ≤ 102 then some (c.toNat - 87)
  else if 65 ≤ c.toNat ∧ c.toNat ≤ 70 then some (c.toNat - 55)
  else none

/-- The code unit of four hexadecimal digit characters, most significant
first. -/
def hexVal4 (a b c d : Char) : Option Nat := do
  let x ← hexVal a
  let y ← hexVal b
  let z ← hexVal c
  let w ← hexVal d
  pure (((x * 16 + y) * 16 + z) * 16 + w)

/-- After a backslash-u whose payload was a high surrogate n: the low
surrogate escape that must follow, combined with n into one character. -/
def decodeLowSurrogate (n : Nat) (cs : List Char) : Option (Char × List Char) :=
  match cs with
  | '\\' :: 'u' :: g1 :: g2 :: g3 :: g4 :: cs4 =>
    match hexVal4 g1 g2 g3 g4 with
    | none => none
    | some m =>
      if 56320 ≤ m ∧ m ≤ 57343 then
        some (Char.ofNat (65536 + (n - 55296) * 1024 + (m - 56320)), cs4)
      else none
  | _ => none

/-- A backslash-u escape, after the u: four hexadecimal digits, continued
into a surrogate pair when they read as a high surrogate. A lone surrogate
is rejected (a Lean character cannot carry one; Python would build a
surrogate-bearing str here). -/
def decodeUnicodeEscape (cs : List Char) : Option (Char × List Char) :=
  match cs with
  | h1 :: h2 :: h3 :: h4 :: cs3 =>
    match hexVal4 h1 h2 h3 h4 with
    | none => none
    | some n =>
      if n < 55296 ∨ 57343 < n then some (Char.ofNat n, cs3)
      else if n ≤ 56319 then decodeLowSurrogate n cs3
      else none
  | _ => none

/-- One string escape, after the backslash: the denoted character and the
rest of the input. The escapes are those json.loads accepts. -/
def decodeEscape (cs : List Char) : Option (Char × List Char) :=
  match cs with
  | '"' :: cs2 => some ('"', cs2)
  | '\\' :: cs2 => some ('\\', cs2)
  | '/' :: cs2 => some ('/', cs2)
  | 'n' :: cs2 => some ('\n', cs2)
  | 't' :: cs2 => some ('\t', cs2)
  | 'r' :: cs2 => some ('\r', cs2)
  | 'b' :: cs2 => some (Char.ofNat 8, cs2)
  | 'f' :: cs2 => some (Char.ofNat 12, cs2)
  | 'u' :: cs2 => decodeUnicodeEscape cs2
  | _ => none

/-- The body of a string literal, after the opening quote: the decoded
characters up to the closing quote, and the input after it. Escapes are
decoded as json.loads does in its default strict mode (which also rejects
bare control characters). The fuel bounds the recursion; one unit is spent
per decoded character, so any fuel beyond the decoded length suffices. -/
def parseStringBody : Nat → List Char → Option (List Char × List Char)
  | _, [] => none
  | 0, _ :: _ => none
  | fuel + 1, c :: cs =>
    if c = '"' then some ([], cs)
    else if c = '\\' then
      match decodeEscape cs with
      | none => none
      | some (d, cs2) => (parseStringBody fuel cs2).map (fun p => (d :: p.1, p.2))
    else if c.toNat < 32 then none
    else (parseStringBody fuel cs).map (fun p => (c :: p.1, p.2))

/-- A run of decimal digits turned into a natural number. -/
def digitsToNat (ds : List Char) : Nat :=
  ds.foldl (fun a c => a * 10 + (c.toNat - 48)) 0

/-- An unsigned decimal integer at the head of the input. -/
def parseNatNum (cs : List Char) : Option (Nat × List Char) :=
  let ds := cs.takeWhile isDecDigit
  if ds.isEmpty then none
  else some (digitsToNat ds, cs.dropWhile isDecDigit)

/-- A signed decimal integer at the head of the input. -/
def parseIntNum (cs : List Char) : Option (Int × List Char) :=
  if cs.head? = some '-' then
    (parseNatNum cs.tail).map (fun p => (-(p.1 : Int), p.2))
  else
    (parseNatNum cs).map (fun p => ((p.1 : Int), p.2))

mutual
/-- A JSON value at the head of the input (after leading whitespace). The
fuel argument bounds the recursion depth; any fuel of at least the length
of the rendered value suffices. -/
def parseVal : Nat → List Char → Option (Json × List Char)
  | 0, _ => none
  | fuel + 1, cs =>
    match skipWs cs with
    | [] => none
    | c :: r =>
      if c = 'n' then
        match r with
        | 'u' :: 'l' :: 'l' :: r2 => some (.null, r2)
        | _ => none
      else if c = 't' then
        match r with
        | 'r' :: 'u' :: 'e' :: r2 => some (.bool true, r2)
        | _ => none
      else if c = 'f' then
        match r with
        | 'a' :: 'l' :: 's' :: 'e' :: r2 => some (.bool false, r2)
        | _ => none
      else if c = '"' then
        (parseStringBody fuel r).map (fun p => (.str (String.mk p.1), p.2))
      else if c = '[' then
        let r1 := skipWs r
        if r1.head? = some ']' then some (.arr [], r1.tail)
        else (parseItems fuel r1).map (fun p => (.arr p.1, p.2))
      else if c = Char.ofNat 123 then
        let r1 := skipWs r
        if r1.head? = some (Char.ofNat 125) then some (.obj [], r1.tail)
        else (parsePairs fuel r1).map (fun p => (.obj p.1, p.2))
      else if c = '-' || isDecDigit c then
        (parseIntNum (c :: r)).map (fun p => (.num p.1, p.2))
      else none
/-- One or more comma-separated array items followed by the closing
bracket. -/
def parseItems : Nat → List Char → Option (List Json × List Char)
  | 0, _ => none
  | fuel + 1, cs =>
    match parseVal fuel cs with
    | none => none
    | some (v, r) =>
      match skipWs r with
      | ',' :: r2 => (parseItems fuel (skipWs r2)).map (fun p => (v :: p.1, p.2))
      | ']' :: r2 => some ([v], r2)
      | _ => none
/-- One or more comma-separated object members followed by the closing
brace. -/
def parsePairs : Nat → List Char → Option (List (String × Json) × List Char)
  | 0, _ => none
  | fuel + 1, cs =>
    match cs with
    | '"' :: r =>
      match parseStringBody fuel r with
      | none => none
      | some (key, r1) =>
        match skipWs r1 with
        | ':' :: r2 =>
          match parseVal fuel (skipWs r2) with
          | none => none
          | some (v, r3) =>
            match skipWs r3 with
            | ',' :: r4 => (parsePairs fuel (skipWs r4)).map
                (fun p => ((String.mk key, v) :: p.1, p.2))
            | r4 =>
              if r4.head? = some (Char.ofNat 125) then some ([(String.mk key, v)], r4.tail)
              else none
        | _ => none
    | _ => none
end

/-- json.loads on a string: parse one value, allowing surrounding
whitespace, and require the input to be exhausted. -/
def loads (s : String) : Option Json :=
  match parseVal (s.data.length + 1) s.data with
  | some (v, r) => if skipWs r = [] then some v else none
  | none => none

/-- The PostNotebookRequest pydantic model (interface.py): the notebook,
either a string or a structured document (the dict arm, an association list
of string keys to JSON values), the kernel name, and the retry toggle. -/
structure PostNotebookRequest where
  ipynb : Sum String (List (String × Json))
  kernel_name : String
  enable_retry : Bool

/-- PostNotebookRequest.get_ipynb_as_str: a string notebook passes through
unchanged; a dict notebook is serialized with json.dumps. -/
def PostNotebookRequest.get_ipynb_as_str (r : PostNotebookRequest) : String :=
  match r.ipynb with
  | .inl s => s
  | .inr d => dumps (Json.obj d)

/-- Construction of a PostNotebookRequest from a request body in which the
kernel name and the retry toggle may be omitted: pydantic fills an omitted
kernel_name with the LSST default (kernel_name_field, interface.py) and an
omitted enable_retry with True. -/
def PostNotebookRequest.ofBody (nb : Sum String (List (String × Json)))
    (kernelName : Option String) (enableRetry : Option Bool) : PostNotebookRequest :=
  { ipynb := nb
    kernel_name := kernelName.getD "LSST"
    enable_retry := enableRetry.getD true }

/-! ## Concrete example inputs, for witnesses and counterexamples -/

/-- A concrete request whose url_for builds a URL from the route name and
the job id, as FastAPI does from its routing table. -/
def exampleRequest : Request :=
  ⟨fun route jid => "https://example.org/" ++ route ++ "/" ++ jid⟩

/-- A concrete queued job with id a. -/
def exampleJobA : JobMetadata :=
  ⟨"a", 0, .queued, [("kernel_name", "LSST"), ("ipynb", "nb-source")]⟩

/-- The same job state as exampleJobA except for the id. -/
def exampleJobB : JobMetadata :=
  ⟨"b", 0, .queued, [("kernel_name", "LSST"), ("ipynb", "nb-source")]⟩

/-- A job whose submission parameters lack the ipynb key. -/
def exampleJobNoSource : JobMetadata :=
  ⟨"c", 0, .complete, [("kernel_name", "LSST")]⟩

/-- A job whose submission parameters lack the kernel_name key. -/
def exampleJobNoKernel : JobMetadata :=
  ⟨"d", 0, .queued, [("ipynb", "nb-source")]⟩

/-- A well-formed result: it finishes after it starts. -/
def exampleResult : JobResult := ⟨1, 2, true, "out"⟩

/-- A result violating the consistency invariant of the spec: its finish
time 3 is earlier than its start time 5. -/
def invalidResult : JobResult := ⟨5, 3, true, "out"⟩

/-- A submission whose notebook arrived as a string. -/
def exReqStr : PostNotebookRequest :=
  { ipynb := Sum.inl "nb", kernel_name := "LSST", enable_retry := true }

/-- A submission whose notebook arrived as a structured document. -/
def exReqObj : PostNotebookRequest :=
  { ipynb := Sum.inr [("cells", Json.arr [Json.num 3, Json.str "ab"])]
    kernel_name := "LSST", enable_retry := true }

/-- The response projected from exampleJobA with the source included and no
result. -/
def exampleRespA : NotebookResponse :=
  { job_id := "a", kernel_name := "LSST", enqueue_time := 0, status := .queued
    self_url := "https://example.org/get_nbexec_job/a", source := some "nb-source" }

/-- The response projected from exampleJobA without the source and with
exampleResult. -/
def exampleRespDone : NotebookResponse :=
  { job_id := "a", kernel_name := "LSST", enqueue_time := 0, status := .queued
    self_url := "https://example.org/get_nbexec_job/a"
    start_time := some 1, finish_time := some 2, success := some true
    ipynb := some "out" }

/-! ## Projection lemmas and claim theorems -/

/-- The projection with the source toggle off, written out: one lookup of
kernel_name decides between the KeyError and the response record. -/
theorem fjm_off (job : JobMetadata) (request : Request) (job_result : Option JobResult) :
    NotebookResponse.from_job_metadata job request false job_result =
      match job.kwargs.lookup "kernel_name" with
      | none => Except.error "KeyError: kernel_name"
      | some k =>
        Except.ok
          { job_id := job.id, enqueue_time := job.enqueue_time, status := job.status
            kernel_name := k, source := none
            self_url := request.url_for "get_nbexec_job" job.id
            start_time := job_result.map JobResult.start_time
            finish_time := job_result.map JobResult.finish_time
            success := job_result.map JobResult.success
            ipynb := job_result.map JobResult.result } := by
  unfold NotebookResponse.from_job_metadata dictGet
  cases job.kwargs.lookup "kernel_name" <;> rfl

/-- The projection with the source toggle on, written out: the kernel_name
lookup is taken first, then the ipynb lookup. -/
theorem fjm_on (job : JobMetadata) (request : Request) (job_result : Option JobResult) :
    NotebookResponse.from_job_metadata job request true job_result =
      match job.kwargs.lookup "kernel_name" with
      | none => Except.error "KeyError: kernel_name"
      | some k =>
        match job.kwargs.lookup "ipynb" with
        | none => Except.error "KeyError: ipynb"
        | some nb =>
          Except.ok
            { job_id := job.id, enqueue_time := job.enqueue_time, status := job.status
              kernel_name := k, source := some nb
              self_url := request.url_for "get_nbexec_job" job.id
              start_time := job_result.map JobResult.start_time
              finish_time := job_result.map JobResult.finish_time
              success := job_result.map JobResult.success
              ipynb := job_result.map JobResult.result } := by
  unfold NotebookResponse.from_job_metadata dictGet
  cases job.kwargs.lookup "kernel_name" with
  | none => rfl
  | some k => cases job.kwargs.lookup "ipynb" <;> rfl

/-- Unpacking of a successful projection: the lookups that were taken and
the response record they produce. -/
theorem from_job_metadata_ok {job : JobMetadata} {request : Request}
    {include_source : Bool} {job_result : Option JobResult} {resp : NotebookResponse}
    (h : NotebookResponse.from_job_metadata job request include_source job_result =
      Except.ok resp) :
    ∃ k, job.kwargs.lookup "kernel_name" = some k ∧
      (include_source = false → resp.source = none) ∧
      (include_source = true → resp.source = job.kwargs.lookup "ipynb") ∧
      resp = { job_id := job.id, enqueue_time := job.enqueue_time, status := job.status
               kernel_name := k, source := resp.source
               self_url := request.url_for "get_nbexec_job" job.id
               start_time := job_result.map JobResult.start_time
               finish_time := job_result.map JobResult.finish_time
               success := job_result.map JobResult.success
               ipynb := job_result.map JobResult.result } := by
  cases include_source with
  | false =>
    rw [fjm_off] at h
    cases hk : job.kwargs.lookup "kernel_name" with
    | none => rw [hk] at h; exact Except.noConfusion h
    | some k =>
      rw [hk] at h
      injection h with h2
      subst h2
      exact ⟨k, rfl, fun _ => rfl, fun hn => Bool.noConfusion hn, rfl⟩
  | true =>
    rw [fjm_on] at h
    cases hk : job.kwargs.lookup "kernel_name" with
    | none => rw [hk] at h; exact Except.noConfusion h
    | some k =>
      rw [hk] at h
      cases hi : job.kwargs.lookup "ipynb" with
      | none => rw [hi] at h; exact Except.noConfusion h
      | some nb =>
        rw [hi] at h
        injection h with h2
        subst h2
        exact ⟨k, rfl, fun hn => Bool.noConfusion hn, fun _ => rfl, rfl⟩

/-- The projection succeeds whenever the kernel_name key is present and,
should the source be requested, the ipynb key is present; the supplied
result is never examined beyond copying its fields. -/
theorem from_job_metadata_isOk {job : JobMetadata} {request : Request}
    {include_source : Bool} {job_result : Option JobResult} {k : String}
    (hk : job.kwargs.lookup "kernel_name" = some k)
    (hi : include_source = true → (job.kwargs.lookup "ipynb").isSome = true) :
    (NotebookResponse.from_job_metadata job request include_source job_result).isOk = true := by
  cases include_source with
  | false => rw [fjm_off, hk]; rfl
  | true =>
    rw [fjm_on, hk]
    cases hv : job.kwargs.lookup "ipynb" with
    | none =>
      rw [hv] at hi
      exact absurd (hi rfl) (by decide)
    | some nb => rfl

/-- Claim C1: a successful projection carries the submitted notebook text
as its source field exactly when the caller set include_source, and no
source otherwise, whatever the result and status are. -/
theorem claim_source_toggle (job : JobMetadata) (request : Request)
    (include_source : Bool) (job_result : Option JobResult) (resp : NotebookResponse)
    (h : NotebookResponse.from_job_metadata job request include_source job_result =
      Except.ok resp) :
    (include_source = true → resp.source = job.kwargs.lookup "ipynb") ∧
    (include_source = false → resp.source = none) := by
  obtain ⟨k, _, hf, ht, _⟩ := from_job_metadata_ok h
  exact ⟨ht, hf⟩

/-- Witness for C1 at concrete inputs: with the toggle on, the projection
of exampleJobA yields exampleRespA, whose source is the stored text. -/
theorem claim_source_toggle_w :
    (true = true → exampleRespA.source = exampleJobA.kwargs.lookup "ipynb") ∧
    (true = false → exampleRespA.source = none) :=
  claim_source_toggle exampleJobA exampleRequest true none exampleRespA (by rfl)

/-- Claim C2: in a successful projection the four result-derived fields are
all absent when no result was supplied, and all present and copied from the
result when one was, never a partial subset. -/
theorem claim_result_fields_all_or_nothing (job : JobMetadata) (request : Request)
    (include_source : Bool) (job_result : Option JobResult) (resp : NotebookResponse)
    (h : NotebookResponse.from_job_metadata job request include_source job_result =
      Except.ok resp) :
    (job_result = none → resp.start_time = none ∧ resp.finish_time = none ∧
      resp.success = none ∧ resp.ipynb = none) ∧
    (∀ r, job_result = some r → resp.start_time = some r.start_time ∧
      resp.finish_time = some r.finish_time ∧ resp.success = some r.success ∧
      resp.ipynb = some r.result) := by
  obtain ⟨k, _, _, _, hresp⟩ := from_job_metadata_ok h
  constructor
  · rintro rfl
    rw [hresp]
    exact ⟨rfl, rfl, rfl, rfl⟩
  · rintro r rfl
    rw [hresp]
    exact ⟨rfl, rfl, rfl, rfl⟩

/-- Witness for C2 at concrete inputs: projecting exampleJobA with
exampleResult populates all four fields from it. -/
theorem claim_result_fields_all_or_nothing_w :
    (some exampleResult = none → exampleRespDone.start_time = none ∧
      exampleRespDone.finish_time = none ∧ exampleRespDone.success = none ∧
      exampleRespDone.ipynb = none) ∧
    (∀ r, some exampleResult = some r → exampleRespDone.start_time = some r.start_time ∧
      exampleRespDone.finish_time = some r.finish_time ∧
      exampleRespDone.success = some r.success ∧ exampleRespDone.ipynb = some r.result) :=
  claim_result_fields_all_or_nothing exampleJobA exampleRequest false
    (some exampleResult) exampleRespDone (by rfl)

/-- Claim C4, counterexample: the code performs no consistency check on the
supplied result. invalidResult finishes (time 3) before it starts (time 5),
violating the invariant, yet the projection returns a response instead of
raising: no InvalidJobState (or any other) failure occurs. -/
theorem claim_invalid_result_cex :
    invalidResult.finish_time < invalidResult.start_time ∧
    NotebookResponse.from_job_metadata exampleJobA exampleRequest false
        (some invalidResult) =
      Except.ok
        { job_id := "a", kernel_name := "LSST", enqueue_time := 0, status := .queued
          self_url := "https://example.org/get_nbexec_job/a"
          start_time := some 5, finish_time := some 3, success := some true
          ipynb := some "out" } :=
  ⟨by norm_num [invalidResult], by rfl⟩

/-- Claim C4, amended: the projector never raises InvalidJobState; it
performs no validation of the supplied result, and succeeds for any result,
consistent or not, whenever the required submission-parameter keys are
present. -/
theorem claim_no_result_validation (job : JobMetadata) (request : Request)
    (include_source : Bool) (job_result : Option JobResult) (k : String)
    (hk : job.kwargs.lookup "kernel_name" = some k)
    (hi : include_source = true → (job.kwargs.lookup "ipynb").isSome = true) :
    (NotebookResponse.from_job_metadata job request include_source job_result).isOk = true :=
  from_job_metadata_isOk hk hi

/-- Witness for the amended C4 at concrete inputs: the projection succeeds
even on invalidResult. -/
theorem claim_no_result_validation_w :
    (NotebookResponse.from_job_metadata exampleJobA exampleRequest false
      (some invalidResult)).isOk = true :=
  claim_no_result_validation exampleJobA exampleRequest false (some invalidResult)
    "LSST" (by rfl) (by intro h; cases h)

/-- Claim C5, counterexample: self_url is not independent of the job's
state. exampleJobA and exampleJobB agree on every field except the id, yet
their projections (under the same request) carry different self_url values:
the URL is derived from job.id through the route reversal. -/
theorem claim_self_url_cex :
    exampleJobA.enqueue_time = exampleJobB.enqueue_time ∧
    exampleJobA.status = exampleJobB.status ∧
    exampleJobA.kwargs = exampleJobB.kwargs ∧
    Except.map NotebookResponse.self_url
        (NotebookResponse.from_job_metadata exampleJobA exampleRequest false none) =
      Except.ok "https://example.org/get_nbexec_job/a" ∧
    Except.map NotebookResponse.self_url
        (NotebookResponse.from_job_metadata exampleJobB exampleRequest false none) =
      Except.ok "https://example.org/get_nbexec_job/b" ∧
    ("https://example.org/get_nbexec_job/a" : String) ≠
      "https://example.org/get_nbexec_job/b" :=
  ⟨rfl, rfl, rfl, by rfl, by rfl, by decide⟩

/-- Claim C5, amended: self_url is the URL the caller-supplied request
reverses for the job-read route at the job's own id: it is derived from the
request context together with job.id (and from no other job field). -/
theorem claim_self_url_route (job : JobMetadata) (request : Request)
    (include_source : Bool) (job_result : Option JobResult) (resp : NotebookResponse)
    (h : NotebookResponse.from_job_metadata job request include_source job_result =
      Except.ok resp) :
    resp.self_url = request.url_for "get_nbexec_job" job.id := by
  obtain ⟨k, _, _, _, hresp⟩ := from_job_metadata_ok h
  rw [hresp]

/-- Witness for the amended C5 at concrete inputs. -/
theorem claim_self_url_route_w :
    exampleRespA.self_url = exampleRequest.url_for "get_nbexec_job" exampleJobA.id :=
  claim_self_url_route exampleJobA exampleRequest true none exampleRespA (by rfl)

/-- Claim C6: a successful projection copies the job id, the enqueue time
and the status verbatim, and its kernel name is exactly the kernel name
recorded in the submission parameters, whatever the result. -/
theorem claim_identity_fields (job : JobMetadata) (request : Request)
    (include_source : Bool) (job_result : Option JobResult) (resp : NotebookResponse)
    (h : NotebookResponse.from_job_metadata job request include_source job_result =
      Except.ok resp) :
    resp.job_id = job.id ∧ resp.enqueue_time = job.enqueue_time ∧
    resp.status = job.status ∧ job.kwargs.lookup "kernel_name" = some resp.kernel_name := by
  obtain ⟨k, hk, _, _, hresp⟩ := from_job_metadata_ok h
  rw [hresp]
  exact ⟨rfl, rfl, rfl, hk⟩

/-- Witness for C6 at concrete inputs. -/
theorem claim_identity_fields_w :
    exampleRespDone.job_id = exampleJobA.id ∧
    exampleRespDone.enqueue_time = exampleJobA.enqueue_time ∧
    exampleRespDone.status = exampleJobA.status ∧
    exampleJobA.kwargs.lookup "kernel_name" = some exampleRespDone.kernel_name :=
  claim_identity_fields exampleJobA exampleRequest false (some exampleResult)
    exampleRespDone (by rfl)

/-- Claim C7: the projection is deterministic, two successful projections of
identical inputs being the same response value, and it raises no error on
well-formed inputs, those whose submission parameters carry the keys the
projection reads. -/
theorem claim_projection_deterministic :
    (∀ (job : JobMetadata) (request : Request) (include_source : Bool)
        (job_result : Option JobResult) (resp1 resp2 : NotebookResponse),
      NotebookResponse.from_job_metadata job request include_source job_result =
          Except.ok resp1 →
        NotebookResponse.from_job_metadata job request include_source job_result =
          Except.ok resp2 → resp1 = resp2) ∧
    (∀ (job : JobMetadata) (request : Request) (include_source : Bool)
        (job_result : Option JobResult) (k : String),
      job.kwargs.lookup "kernel_name" = some k →
      (include_source = true → (job.kwargs.lookup "ipynb").isSome = true) →
      (NotebookResponse.from_job_metadata job request include_source job_result).isOk =
        true) := by
  constructor
  · intro job request include_source job_result resp1 resp2 h1 h2
    rw [h1] at h2
    cases h2
    rfl
  · intro job request include_source job_result k hk hi
    exact from_job_metadata_isOk hk hi

/-- Claim C8: an omitted kernel name defaults to the LSST kernel and an
omitted retry toggle defaults to true. -/
theorem claim_defaults (nb : Sum String (List (String × Json))) :
    (PostNotebookRequest.ofBody nb none none).kernel_name = "LSST" ∧
    (PostNotebookRequest.ofBody nb none none).enable_retry = true :=
  ⟨rfl, rfl⟩

/-- Claim C9: the stored notebook text is read only under the toggle. A job
whose parameters lack the ipynb key still projects successfully when the
source is not requested, while a missing kernel_name key makes every
projection fail with a lookup error. -/
theorem claim_lazy_source_lookup :
    (∀ (job : JobMetadata) (request : Request) (job_result : Option JobResult)
        (k : String),
      job.kwargs.lookup "ipynb" = none →
      job.kwargs.lookup "kernel_name" = some k →
      (NotebookResponse.from_job_metadata job request false job_result).isOk = true) ∧
    (∀ (job : JobMetadata) (request : Request) (include_source : Bool)
        (job_result : Option JobResult),
      job.kwargs.lookup "kernel_name" = none →
      NotebookResponse.from_job_metadata job request include_source job_result =
        Except.error "KeyError: kernel_name") := by
  constructor
  · intro job request job_result k _ hk
    exact from_job_metadata_isOk hk (by intro h; cases h)
  · intro job request include_source job_result hk
    unfold NotebookResponse.from_job_metadata dictGet
    rw [hk]
    rfl

/-- Witness for C7 at concrete inputs: both conjuncts applied to
exampleJobA. -/
theorem claim_projection_deterministic_w :
    exampleRespA = exampleRespA ∧
    (NotebookResponse.from_job_metadata exampleJobA exampleRequest true none).isOk =
      true :=
  ⟨claim_projection_deterministic.1 exampleJobA exampleRequest true none
      exampleRespA exampleRespA (by rfl) (by rfl),
    claim_projection_deterministic.2 exampleJobA exampleRequest true none "LSST"
      (by rfl) (fun _ => by rfl)⟩

/-- Witness for C9 at concrete inputs: exampleJobNoSource projects without
the toggle; exampleJobNoKernel always fails. -/
theorem claim_lazy_source_lookup_w :
    (NotebookResponse.from_job_metadata exampleJobNoSource exampleRequest false
      (some exampleResult)).isOk = true ∧
    NotebookResponse.from_job_metadata exampleJobNoKernel exampleRequest true none =
      Except.error "KeyError: kernel_name" :=
  ⟨claim_lazy_source_lookup.1 exampleJobNoSource exampleRequest (some exampleResult)
      "LSST" (by rfl) (by rfl),
    claim_lazy_source_lookup.2 exampleJobNoKernel exampleRequest true none (by rfl)⟩

/-! ## The serialization round trip: characters and strings -/

/-- Every character carries a Unicode scalar value: below the surrogate
range, or strictly between it and 0x110000. -/
theorem char_scalar (c : Char) :
    c.toNat < 55296 ∨ (57343 < c.toNat ∧ c.toNat < 1114112) := c.valid

/-- Decoding a lowercase hexadecimal digit undoes encoding it. -/
theorem hexVal_hexDigit (x : Nat) (h : x < 16) : hexVal (hexDigit x) = some x := by
  interval_cases x <;> rfl

/-- Decoding the four digits of one backslash-u payload undoes encoding
them. -/
theorem hexVal4_hexQuad (n : Nat) (h : n < 65536) :
    hexVal4 (hexDigit (n / 4096 % 16)) (hexDigit (n / 256 % 16))
      (hexDigit (n / 16 % 16)) (hexDigit (n % 16)) = some n := by
  unfold hexVal4
  rw [hexVal_hexDigit _ (Nat.mod_lt _ (by omega)), hexVal_hexDigit _ (Nat.mod_lt _ (by omega)),
    hexVal_hexDigit _ (Nat.mod_lt _ (by omega)), hexVal_hexDigit _ (Nat.mod_lt _ (by omega))]
  show some _ = some n
  congr 1
  omega

/-- Decoding one backslash-u payload that is no surrogate yields its
character. -/
theorem decodeUnicodeEscape_quad (n : Nat) (tail : List Char)
    (hn16 : n < 65536) (hn : n < 55296 ∨ 57343 < n) :
    decodeUnicodeEscape (hexQuad n ++ tail) = some (Char.ofNat n, tail) := by
  rw [hexQuad]
  show decodeUnicodeEscape
      (hexDigit (n / 4096 % 16) :: hexDigit (n / 256 % 16) ::
        hexDigit (n / 16 % 16) :: hexDigit (n % 16) :: tail) = _
  unfold decodeUnicodeEscape
  simp only []
  rw [hexVal4_hexQuad n hn16]
  simp only []
  rw [if_pos hn]

/-- Decoding the low-surrogate half after a high surrogate n yields the
combined character. -/
theorem decodeLowSurrogate_quad (n m : Nat) (tail : List Char)
    (hm16 : m < 65536) (hm : 56320 ≤ m ∧ m ≤ 57343) :
    decodeLowSurrogate n ('\\' :: 'u' :: (hexQuad m ++ tail)) =
      some (Char.ofNat (65536 + (n - 55296) * 1024 + (m - 56320)), tail) := by
  rw [hexQuad]
  show decodeLowSurrogate n ('\\' :: 'u' :: hexDigit (m / 4096 % 16) ::
    hexDigit (m / 256 % 16) :: hexDigit (m / 16 % 16) :: hexDigit (m % 16) :: tail) = _
  unfold decodeLowSurrogate
  simp only []
  rw [hexVal4_hexQuad m hm16]
  simp only []
  rw [if_pos hm]

/-- Decoding a surrogate-pair escape yields the combined character. -/
theorem decodeUnicodeEscape_pair (n m : Nat) (tail : List Char)
    (hn : 55296 ≤ n ∧ n ≤ 56319) (hm : 56320 ≤ m ∧ m ≤ 57343) :
    decodeUnicodeEscape (hexQuad n ++ ('\\' :: 'u' :: (hexQuad m ++ tail))) =
      some (Char.ofNat (65536 + (n - 55296) * 1024 + (m - 56320)), tail) := by
  rw [hexQuad]
  show decodeUnicodeEscape (hexDigit (n / 4096 % 16) :: hexDigit (n / 256 % 16) ::
    hexDigit (n / 16 % 16) :: hexDigit (n % 16) :: ('\\' :: 'u' :: (hexQuad m ++ tail))) = _
  unfold decodeUnicodeEscape
  simp only []
  rw [hexVal4_hexQuad n (by omega)]
  simp only []
  rw [if_neg (by omega), if_pos (by omega), decodeLowSurrogate_quad n m tail (by omega) hm]

/-- The u escape dispatches to the backslash-u decoder. -/
theorem decodeEscape_u (cs2 : List Char) :
    decodeEscape ('u' :: cs2) = decodeUnicodeEscape cs2 := rfl

/-- Either a character is written verbatim by the escaper, or its escape
sequence begins with a backslash and decodes back to it. -/
theorem escapeChar_inverse (c : Char) :
    (escapeChar c = [c] ∧ c ≠ '"' ∧ c ≠ '\\' ∧ 32 ≤ c.toNat) ∨
    (∃ pl, escapeChar c = '\\' :: pl ∧
      ∀ tail, decodeEscape (pl ++ tail) = some (c, tail)) := by
  by_cases hq : c = '"'
  · subst hq; exact Or.inr ⟨['"'], rfl, fun tail => rfl⟩
  by_cases hb : c = '\\'
  · subst hb; exact Or.inr ⟨['\\'], rfl, fun tail => rfl⟩
  by_cases hnl : c = '\n'
  · subst hnl; exact Or.inr ⟨['n'], rfl, fun tail => rfl⟩
  by_cases htb : c = '\t'
  · subst htb; exact Or.inr ⟨['t'], rfl, fun tail => rfl⟩
  by_cases hcr : c = '\r'
  · subst hcr; exact Or.inr ⟨['r'], rfl, fun tail => rfl⟩
  by_cases hbs : c = Char.ofNat 8
  · subst hbs; exact Or.inr ⟨['b'], rfl, fun tail => rfl⟩
  by_cases hff : c = Char.ofNat 12
  · subst hff; exact Or.inr ⟨['f'], rfl, fun tail => rfl⟩
  by_cases hpr : 32 ≤ c.toNat ∧ c.toNat ≤ 126
  · refine Or.inl ⟨?_, hq, hb, hpr.1⟩
    rw [escapeChar, if_neg hq, if_neg hb, if_neg hnl, if_neg htb, if_neg hcr,
      if_neg hbs, if_neg hff, if_pos hpr]
  by_cases hbmp : c.toNat < 65536
  · have hs : c.toNat < 55296 ∨ 57343 < c.toNat := by
      rcases char_scalar c with h | h
      · exact Or.inl h
      · exact Or.inr h.1
    refine Or.inr ⟨'u' :: hexQuad c.toNat, ?_, fun tail => ?_⟩
    · rw [escapeChar, if_neg hq, if_neg hb, if_neg hnl, if_neg htb, if_neg hcr,
        if_neg hbs, if_neg hff, if_neg hpr, if_pos hbmp]
    · show decodeEscape ('u' :: (hexQuad c.toNat ++ tail)) = _
      rw [decodeEscape_u, decodeUnicodeEscape_quad c.toNat tail hbmp hs, Char.ofNat_toNat]
  · have hup : c.toNat < 1114112 := by
      rcases char_scalar c with h | h
      · omega
      · exact h.2
    have hmod := Nat.mod_lt (c.toNat - 65536) (show 0 < 1024 by omega)
    refine Or.inr ⟨'u' :: (hexQuad (55296 + (c.toNat - 65536) / 1024) ++
      '\\' :: 'u' :: hexQuad (56320 + (c.toNat - 65536) % 1024)), ?_, fun tail => ?_⟩
    · rw [escapeChar, if_neg hq, if_neg hb, if_neg hnl, if_neg htb, if_neg hcr,
        if_neg hbs, if_neg hff, if_neg hpr, if_neg hbmp]
      simp only [List.cons_append, List.append_assoc]
    · show decodeEscape ('u' :: ((hexQuad (55296 + (c.toNat - 65536) / 1024) ++
        '\\' :: 'u' :: hexQuad (56320 + (c.toNat - 65536) % 1024)) ++ tail)) = _
      rw [decodeEscape_u]
      rw [List.append_assoc, List.cons_append, List.cons_append]
      rw [decodeUnicodeEscape_pair (55296 + (c.toNat - 65536) / 1024)
        (56320 + (c.toNat - 65536) % 1024) tail (by omega) (by omega)]
      have harith : 65536 + (55296 + (c.toNat - 65536) / 1024 - 55296) * 1024 +
          (56320 + (c.toNat - 65536) % 1024 - 56320) = c.toNat := by
        have h2 := Nat.div_add_mod (c.toNat - 65536) 1024
        omega
      rw [harith, Char.ofNat_toNat]

/-- Parsing one escaped character undoes escaping it, whatever follows,
spending one unit of fuel. -/
theorem parseStringBody_escape (c : Char) (fuel : Nat) (tail : List Char) :
    parseStringBody (fuel + 1) (escapeChar c ++ tail) =
      (parseStringBody fuel tail).map (fun p => (c :: p.1, p.2)) := by
  rcases escapeChar_inverse c with ⟨he, hq, hb, hge⟩ | ⟨pl, he, hdec⟩
  · rw [he]
    show parseStringBody (fuel + 1) (c :: tail) = _
    conv_lhs => rw [parseStringBody.eq_def]
    simp only []
    rw [if_neg hq, if_neg hb, if_neg (by omega : ¬c.toNat < 32)]
  · rw [he]
    show parseStringBody (fuel + 1) ('\\' :: (pl ++ tail)) = _
    conv_lhs => rw [parseStringBody.eq_def]
    simp only []
    rw [hdec tail]
    rw [if_neg (show ¬(('\\' : Char) = '"') by decide), if_pos trivial]

/-- Parsing an escaped character run recovers the run, stopping at the
closing quote, for any fuel beyond the run's length. -/
theorem parseStringBody_flat (l : List Char) : ∀ (fuel : Nat) (rest : List Char),
    l.length < fuel →
    parseStringBody fuel (l.flatMap escapeChar ++ '"' :: rest) = some (l, rest) := by
  induction l with
  | nil =>
    intro fuel rest hf
    match fuel, hf with
    | fuel + 1, _ =>
      show parseStringBody (fuel + 1) ('"' :: rest) = _
      conv_lhs => rw [parseStringBody.eq_def]
      simp only []
      rw [if_pos trivial]
  | cons c l ih =>
    intro fuel rest hf
    match fuel, hf with
    | fuel + 1, hf =>
      rw [List.flatMap_cons, List.append_assoc,
        parseStringBody_escape c fuel (l.flatMap escapeChar ++ '"' :: rest),
        ih fuel rest (by simpa using Nat.lt_of_succ_lt_succ hf)]
      rfl

/-! ## The serialization round trip: numbers -/

/-- The character of a decimal digit carries its value. -/
theorem digitChar_toNat (d : Nat) (h : d < 10) : (Char.ofNat (48 + d)).toNat = 48 + d := by
  interval_cases d <;> rfl

/-- The character of a decimal digit is a decimal digit. -/
theorem digitChar_digit (d : Nat) (h : d < 10) : isDecDigit (Char.ofNat (48 + d)) = true := by
  interval_cases d <;> rfl

/-- Every character a natural number renders to is a decimal digit. -/
theorem natDigits_all (n : Nat) : ∀ c ∈ natDigits n, isDecDigit c = true := by
  induction n using Nat.strong_induction_on with
  | _ n ih =>
    rw [natDigits]
    by_cases h : n < 10
    · rw [dif_pos h]
      intro c hc
      rw [List.mem_singleton] at hc
      subst hc
      exact digitChar_digit n h
    · rw [dif_neg h]
      intro c hc
      rcases List.mem_append.mp hc with h1 | h1
      · exact ih (n / 10) (Nat.div_lt_self (by omega) (by omega)) c h1
      · rw [List.mem_singleton] at h1
        subst h1
        exact digitChar_digit _ (Nat.mod_lt _ (by omega))

/-- A rendered natural number is never empty. -/
theorem natDigits_ne_nil (n : Nat) : natDigits n ≠ [] := by
  rw [natDigits]
  by_cases h : n < 10
  · rw [dif_pos h]; simp
  · rw [dif_neg h]; simp

/-- A rendered natural number starts with a decimal digit. -/
theorem natDigits_head (n : Nat) : ∃ c t, natDigits n = c :: t ∧ isDecDigit c = true := by
  cases h : natDigits n with
  | nil => exact absurd h (natDigits_ne_nil n)
  | cons c t => exact ⟨c, t, rfl, natDigits_all n c (h ▸ List.mem_cons_self c t)⟩

/-- Reading the rendered digits of a natural number back recovers it. -/
theorem digitsToNat_natDigits (n : Nat) : digitsToNat (natDigits n) = n := by
  induction n using Nat.strong_induction_on with
  | _ n ih =>
    unfold digitsToNat
    rw [natDigits]
    by_cases h : n < 10
    · rw [dif_pos h]
      simp only [List.foldl_cons, List.foldl_nil, digitChar_toNat n h]
      omega
    · rw [dif_neg h, List.foldl_append]
      have hrec := ih (n / 10) (Nat.div_lt_self (by omega) (by omega))
      unfold digitsToNat at hrec
      rw [hrec]
      simp only [List.foldl_cons, List.foldl_nil, digitChar_toNat _ (Nat.mod_lt _ (by omega))]
      omega

/-- An input that does not open with a digit contributes nothing to a digit
run and survives it whole. -/
theorem headNotDigit_while (rest : List Char) (h : headNotDigit rest = true) :
    rest.takeWhile isDecDigit = [] ∧ rest.dropWhile isDecDigit = rest := by
  cases rest with
  | nil => exact ⟨rfl, rfl⟩
  | cons c t =>
    have hc : isDecDigit c = false := by
      simpa [headNotDigit] using h
    rw [List.takeWhile_cons, List.dropWhile_cons, hc]
    exact ⟨rfl, rfl⟩

/-- Parsing an unsigned number after the renderer undoes it, whenever the
remainder opens with no digit. -/
theorem parseNatNum_natDigits (n : Nat) (rest : List Char) (h : headNotDigit rest = true) :
    parseNatNum (natDigits n ++ rest) = some (n, rest) := by
  obtain ⟨ht, hd⟩ := headNotDigit_while rest h
  have hall : ∀ c ∈ natDigits n, isDecDigit c := by
    intro c hc
    exact natDigits_all n c hc
  unfold parseNatNum
  rw [List.takeWhile_append_of_pos hall, List.dropWhile_append_of_pos hall, ht, hd,
    List.append_nil]
  rw [if_neg (by simp [List.isEmpty_iff, natDigits_ne_nil n])]
  rw [digitsToNat_natDigits]

/-- A decimal digit is not the minus sign. -/
theorem decDigit_ne_minus (c : Char) (h : isDecDigit c = true) : c ≠ '-' := by
  rintro rfl
  exact absurd h (by decide)

/-- Parsing a signed number after the renderer undoes it, whenever the
remainder opens with no digit. -/
theorem parseIntNum_intDigits (n : Int) (rest : List Char) (h : headNotDigit rest = true) :
    parseIntNum (intDigits n ++ rest) = some (n, rest) := by
  unfold intDigits
  by_cases hn : n < 0
  · rw [if_pos hn, List.cons_append]
    unfold parseIntNum
    rw [if_pos (by rw [List.head?_cons])]
    rw [List.tail_cons, parseNatNum_natDigits n.natAbs rest h]
    simp only [Option.map_some']
    have : -((n.natAbs : Nat) : Int) = n := by omega
    rw [this]
  · rw [if_neg hn]
    unfold parseIntNum
    obtain ⟨c, t, hc, hdig⟩ := natDigits_head n.natAbs
    have hhead : (natDigits n.natAbs ++ rest).head? ≠ some '-' := by
      rw [hc, List.cons_append, List.head?_cons]
      intro hcon
      exact decDigit_ne_minus c hdig (by injection hcon)
    rw [if_neg hhead, parseNatNum_natDigits n.natAbs rest h]
    simp only [Option.map_some']
    have : ((n.natAbs : Nat) : Int) = n := by omega
    rw [this]

/-! ## The serialization round trip: rendered output shapes -/

/-- A decimal digit is none of the characters the value parser dispatches
on, and no whitespace or closing delimiter. -/
theorem decDigit_props (c : Char) (h : isDecDigit c = true) :
    isJsonWs c = false ∧ c ≠ ']' ∧ c ≠ Char.ofNat 125 ∧ c ≠ 'n' ∧ c ≠ 't' ∧
    c ≠ 'f' ∧ c ≠ '"' ∧ c ≠ '[' ∧ c ≠ Char.ofNat 123 := by
  have hb : 48 ≤ c.toNat ∧ c.toNat ≤ 57 := by
    simpa [isDecDigit] using h
  refine ⟨?_, ?_, ?_, ?_, ?_, ?_, ?_, ?_, ?_⟩
  · simp only [isJsonWs, Bool.or_eq_false_iff, decide_eq_false_iff_not]
    omega
  all_goals (rintro rfl; revert h; decide)

/-- Whitespace stripping leaves any input whose head is no whitespace. -/
theorem skipWs_cons_of_not (c : Char) (t : List Char) (h : isJsonWs c = false) :
    skipWs (c :: t) = c :: t := by
  simp [skipWs, List.dropWhile_cons, h]

/-- Every rendered value begins with a character that is no whitespace and
closes no bracket. -/
theorem dumpsChars_head (j : Json) :
    ∃ c t, dumpsChars j = c :: t ∧ isJsonWs c = false ∧ c ≠ ']' ∧ c ≠ Char.ofNat 125 := by
  cases j with
  | num n =>
    rw [show dumpsChars (.num n) = intDigits n from rfl, intDigits]
    by_cases hn : n < 0
    · rw [if_pos hn]
      exact ⟨'-', _, rfl, by decide⟩
    · rw [if_neg hn]
      obtain ⟨c, t, hct, hdig⟩ := natDigits_head n.natAbs
      obtain ⟨h1, h2, h3, _⟩ := decDigit_props c hdig
      exact ⟨c, t, hct, h1, h2, h3⟩
  | bool b =>
    cases b
    · exact ⟨'f', _, rfl, by decide⟩
    · exact ⟨'t', _, rfl, by decide⟩
  | null => exact ⟨'n', _, rfl, by decide⟩
  | str s => exact ⟨'"', _, rfl, by decide⟩
  | arr es => exact ⟨'[', _, rfl, by decide⟩
  | obj ms => exact ⟨Char.ofNat 123, _, rfl, by decide⟩

/-- Whitespace stripping leaves a rendered value in place. -/
theorem skipWs_dumps (j : Json) (X : List Char) :
    skipWs (dumpsChars j ++ X) = dumpsChars j ++ X := by
  obtain ⟨c, t, hct, hws, _, _⟩ := dumpsChars_head j
  rw [hct, List.cons_append]
  exact skipWs_cons_of_not c _ hws

/-- A rendered item run begins like its first rendered value. -/
theorem dumpsItems_head (e : Json) (es : List Json) :
    ∃ c t, dumpsItems (e :: es) = c :: t ∧ isJsonWs c = false ∧ c ≠ ']' ∧
      c ≠ Char.ofNat 125 := by
  obtain ⟨c, t, hct, h1, h2, h3⟩ := dumpsChars_head e
  cases es with
  | nil => exact ⟨c, t, by rw [show dumpsItems [e] = dumpsChars e from rfl, hct], h1, h2, h3⟩
  | cons e2 es2 =>
    refine ⟨c, t ++ ',' :: ' ' :: dumpsItems (e2 :: es2), ?_, h1, h2, h3⟩
    rw [show dumpsItems (e :: e2 :: es2) =
      dumpsChars e ++ ',' :: ' ' :: dumpsItems (e2 :: es2) from rfl, hct, List.cons_append]

/-- Whitespace stripping leaves a rendered item run in place. -/
theorem skipWs_dumpsItems (e : Json) (es : List Json) (X : List Char) :
    skipWs (dumpsItems (e :: es) ++ X) = dumpsItems (e :: es) ++ X := by
  obtain ⟨c, t, hct, hws, _, _⟩ := dumpsItems_head e es
  rw [hct, List.cons_append]
  exact skipWs_cons_of_not c _ hws

/-- A rendered member run begins with the quote of its first key. -/
theorem dumpsPairs_head (k : String) (v : Json) (ms : List (String × Json)) :
    ∃ t, dumpsPairs ((k, v) :: ms) = '"' :: t := by
  cases ms with
  | nil =>
    exact ⟨(k.data.flatMap escapeChar ++ ['"']) ++ ':' :: ' ' :: dumpsChars v,
      by rw [show dumpsPairs [(k, v)] = dumpsString k ++ ':' :: ' ' :: dumpsChars v from rfl,
        dumpsString, List.cons_append]⟩
  | cons m2 ms2 =>
    refine ⟨((k.data.flatMap escapeChar ++ ['"']) ++ ':' :: ' ' :: dumpsChars v) ++
      ',' :: ' ' :: dumpsPairs (m2 :: ms2), ?_⟩
    rw [show dumpsPairs ((k, v) :: m2 :: ms2) =
      (dumpsString k ++ ':' :: ' ' :: dumpsChars v) ++ ',' :: ' ' :: dumpsPairs (m2 :: ms2)
      from rfl, dumpsString, List.cons_append, List.cons_append]

/-- Whitespace stripping leaves a rendered member run in place. -/
theorem skipWs_dumpsPairs (kv : String × Json) (ms : List (String × Json)) (X : List Char) :
    skipWs (dumpsPairs (kv :: ms) ++ X) = dumpsPairs (kv :: ms) ++ X := by
  obtain ⟨t, hct⟩ := dumpsPairs_head kv.1 kv.2 ms
  rw [show dumpsPairs (kv :: ms) = dumpsPairs ((kv.1, kv.2) :: ms) from rfl, hct,
    List.cons_append]
  exact skipWs_cons_of_not _ _ (by decide)

/-- Escaping never shortens a character run. -/
theorem flatMap_escape_len (l : List Char) :
    l.length ≤ (l.flatMap escapeChar).length := by
  induction l with
  | nil => simp
  | cons c t ih =>
    have h1 : 1 ≤ (escapeChar c).length := by
      rcases escapeChar_inverse c with ⟨he, _⟩ | ⟨pl, he, _⟩ <;> rw [he] <;> simp
    rw [List.flatMap_cons, List.length_append, List.length_cons]
    omega

/-- Every constructor of a JSON value has positive size. -/
theorem json_sizeOf_pos (j : Json) : 0 < sizeOf j := by
  cases j <;> simp

/-- One step of the value parser at a digit head: the input is read as a
number. -/
theorem parseVal_digit (f : Nat) (c : Char) (t : List Char) (h : isDecDigit c = true) :
    parseVal (f + 1) (c :: t) = (parseIntNum (c :: t)).map (fun p => (Json.num p.1, p.2)) := by
  obtain ⟨hws, _, _, hn, ht, hfc, hq, hlb, hlc⟩ := decDigit_props c h
  conv_lhs => rw [parseVal.eq_def]
  simp only []
  rw [skipWs_cons_of_not c t hws]
  simp only []
  rw [if_neg hn, if_neg ht, if_neg hfc, if_neg hq, if_neg hlb, if_neg hlc,
    if_pos (by simp [h])]

/-- One step of the item parser at successor fuel. -/
theorem parseItems_succ (f : Nat) (cs : List Char) :
    parseItems (f + 1) cs =
      (match parseVal f cs with
      | none => none
      | some (v, r) =>
        match skipWs r with
        | ',' :: r2 => (parseItems f (skipWs r2)).map (fun p => (v :: p.1, p.2))
        | ']' :: r2 => some ([v], r2)
        | _ => none) := rfl

/-- One step of the value parser at an opening quote. -/
theorem parseVal_quote (f : Nat) (X : List Char) :
    parseVal (f + 1) ('"' :: X) =
      (parseStringBody f X).map (fun p => (Json.str (String.mk p.1), p.2)) := rfl

/-- One step of the value parser at an opening bracket. -/
theorem parseVal_lbracket (f : Nat) (X : List Char) :
    parseVal (f + 1) ('[' :: X) =
      (if (skipWs X).head? = some ']' then some (.arr [], (skipWs X).tail)
       else (parseItems f (skipWs X)).map (fun p => (.arr p.1, p.2))) := rfl

/-- One step of the value parser at an opening brace. -/
theorem parseVal_lbrace (f : Nat) (X : List Char) :
    parseVal (f + 1) (Char.ofNat 123 :: X) =
      (if (skipWs X).head? = some (Char.ofNat 125) then some (.obj [], (skipWs X).tail)
       else (parsePairs f (skipWs X)).map (fun p => (.obj p.1, p.2))) := rfl

/-- One step of the member parser at a key's opening quote. -/
theorem parsePairs_quote (f : Nat) (X : List Char) :
    parsePairs (f + 1) ('"' :: X) =
      (match parseStringBody f X with
      | none => none
      | some (key, r1) =>
        match skipWs r1 with
        | ':' :: r2 =>
          match parseVal f (skipWs r2) with
          | none => none
          | some (v, r3) =>
            match skipWs r3 with
            | ',' :: r4 => (parsePairs f (skipWs r4)).map
                (fun p => ((String.mk key, v) :: p.1, p.2))
            | r4 =>
              if r4.head? = some (Char.ofNat 125) then some ([(String.mk key, v)], r4.tail)
              else none
        | _ => none) := rfl

/-! ## The serialization round trip, assembled -/

mutual
/-- Parsing a rendered value recovers it exactly, for any fuel beyond the
rendered length, whenever the remainder opens with no digit. -/
theorem rt_val (j : Json) : ∀ (fuel : Nat) (rest : List Char),
    (dumpsChars j).length < fuel → headNotDigit rest = true →
    parseVal fuel (dumpsChars j ++ rest) = some (j, rest) := by
  cases j with
  | null =>
    intro fuel rest hf _
    cases fuel with
    | zero => exact absurd hf (Nat.not_lt_zero _)
    | succ f => rfl
  | bool b =>
    intro fuel rest hf _
    cases fuel with
    | zero => exact absurd hf (Nat.not_lt_zero _)
    | succ f => cases b <;> rfl
  | num n =>
    intro fuel rest hf hr
    cases fuel with
    | zero => exact absurd hf (Nat.not_lt_zero _)
    | succ f =>
      rw [show dumpsChars (.num n) = intDigits n from rfl, intDigits]
      by_cases hn : n < 0
      · rw [if_pos hn, List.cons_append,
          show parseVal (f + 1) ('-' :: (natDigits n.natAbs ++ rest)) =
            (parseIntNum ('-' :: (natDigits n.natAbs ++ rest))).map
              (fun p => (Json.num p.1, p.2)) from rfl,
          show ('-' :: (natDigits n.natAbs ++ rest)) = intDigits n ++ rest from by
            rw [intDigits, if_pos hn, List.cons_append],
          parseIntNum_intDigits n rest hr]
        rfl
      · rw [if_neg hn]
        obtain ⟨c, t, hct, hdig⟩ := natDigits_head n.natAbs
        rw [hct, List.cons_append, parseVal_digit f c (t ++ rest) hdig,
          ← List.cons_append, ← hct,
          show natDigits n.natAbs ++ rest = intDigits n ++ rest from by
            rw [intDigits, if_neg hn],
          parseIntNum_intDigits n rest hr]
        rfl
  | str s =>
    intro fuel rest hf _
    cases fuel with
    | zero => exact absurd hf (Nat.not_lt_zero _)
    | succ f =>
      have hlen : s.data.length < f := by
        have h1 := flatMap_escape_len s.data
        have h2 : (dumpsChars (.str s)).length = (s.data.flatMap escapeChar).length + 2 := by
          rw [show dumpsChars (.str s) = dumpsString s from rfl, dumpsString]
          simp
        omega
      rw [show dumpsChars (.str s) ++ rest =
          '"' :: (s.data.flatMap escapeChar ++ '"' :: rest) from by
        rw [show dumpsChars (.str s) = dumpsString s from rfl, dumpsString]
        simp]
      rw [parseVal_quote, parseStringBody_flat s.data f rest hlen]
      rfl
  | arr es =>
    cases es with
    | nil =>
      intro fuel rest hf _
      cases fuel with
      | zero => exact absurd hf (Nat.not_lt_zero _)
      | succ f => rfl
    | cons e es2 =>
      intro fuel rest hf _
      cases fuel with
      | zero => exact absurd hf (Nat.not_lt_zero _)
      | succ f =>
        have hsz : (dumpsItems (e :: es2)).length + 1 < f := by
          have h2 : (dumpsChars (.arr (e :: es2))).length =
              (dumpsItems (e :: es2)).length + 2 := by
            rw [show dumpsChars (.arr (e :: es2)) =
              '[' :: (dumpsItems (e :: es2) ++ [']']) from rfl]
            simp
          omega
        rw [show dumpsChars (.arr (e :: es2)) ++ rest =
            '[' :: (dumpsItems (e :: es2) ++ ']' :: rest) from by
          rw [show dumpsChars (.arr (e :: es2)) =
            '[' :: (dumpsItems (e :: es2) ++ [']']) from rfl]
          simp]
        rw [parseVal_lbracket, skipWs_dumpsItems e es2]
        obtain ⟨c, t, hct, _, hnrb, _⟩ := dumpsItems_head e es2
        rw [if_neg (by
          rw [hct, List.cons_append, List.head?_cons]
          intro hcc
          exact hnrb (by injection hcc))]
        rw [rt_items e es2 f rest hsz]
        rfl
  | obj ms =>
    cases ms with
    | nil =>
      intro fuel rest hf _
      cases fuel with
      | zero => exact absurd hf (Nat.not_lt_zero _)
      | succ f => rfl
    | cons kv ms2 =>
      intro fuel rest hf _
      cases fuel with
      | zero => exact absurd hf (Nat.not_lt_zero _)
      | succ f =>
        have hsz : (dumpsPairs (kv :: ms2)).length + 1 < f := by
          have h2 : (dumpsChars (.obj (kv :: ms2))).length =
              (dumpsPairs (kv :: ms2)).length + 2 := by
            rw [show dumpsChars (.obj (kv :: ms2)) =
              Char.ofNat 123 :: (dumpsPairs (kv :: ms2) ++ [Char.ofNat 125]) from rfl]
            simp
          omega
        rw [show dumpsChars (.obj (kv :: ms2)) ++ rest =
            Char.ofNat 123 :: (dumpsPairs (kv :: ms2) ++ Char.ofNat 125 :: rest) from by
          rw [show dumpsChars (.obj (kv :: ms2)) =
            Char.ofNat 123 :: (dumpsPairs (kv :: ms2) ++ [Char.ofNat 125]) from rfl]
          simp]
        rw [parseVal_lbrace, skipWs_dumpsPairs kv ms2]
        obtain ⟨t, hct⟩ := dumpsPairs_head kv.1 kv.2 ms2
        rw [if_neg (by
          rw [show dumpsPairs (kv :: ms2) = dumpsPairs ((kv.1, kv.2) :: ms2) from rfl, hct,
            List.cons_append, List.head?_cons]
          intro hcc
          have hq : ('"' : Char) = Char.ofNat 125 := by injection hcc
          exact absurd hq (by decide))]
        rw [rt_pairs kv ms2 f rest hsz]
        rfl
termination_by sizeOf j

/-- Parsing a rendered item run followed by the closing bracket recovers
the items, for any fuel beyond the rendered length. -/
theorem rt_items (e : Json) (es : List Json) : ∀ (fuel : Nat) (rest : List Char),
    (dumpsItems (e :: es)).length + 1 < fuel →
    parseItems fuel (dumpsItems (e :: es) ++ ']' :: rest) = some (e :: es, rest) := by
  cases es with
  | nil =>
    intro fuel rest hf
    cases fuel with
    | zero => exact absurd hf (Nat.not_lt_zero _)
    | succ f =>
      rw [show dumpsItems [e] = dumpsChars e from rfl] at hf ⊢
      rw [parseItems_succ, rt_val e f (']' :: rest) (by omega) (by rfl)]
      rfl
  | cons e2 es2 =>
    intro fuel rest hf
    cases fuel with
    | zero => exact absurd hf (Nat.not_lt_zero _)
    | succ f =>
      have hlen : (dumpsItems (e :: e2 :: es2)).length =
          (dumpsChars e).length + 2 + (dumpsItems (e2 :: es2)).length := by
        rw [show dumpsItems (e :: e2 :: es2) =
          dumpsChars e ++ ',' :: ' ' :: dumpsItems (e2 :: es2) from rfl]
        simp
        omega
      rw [show dumpsItems (e :: e2 :: es2) ++ ']' :: rest =
          dumpsChars e ++ ',' :: ' ' :: (dumpsItems (e2 :: es2) ++ ']' :: rest) from by
        rw [show dumpsItems (e :: e2 :: es2) =
          dumpsChars e ++ ',' :: ' ' :: dumpsItems (e2 :: es2) from rfl]
        simp]
      rw [parseItems_succ,
        rt_val e f (',' :: ' ' :: (dumpsItems (e2 :: es2) ++ ']' :: rest))
          (by omega) (by rfl)]
      simp only []
      rw [show skipWs (',' :: ' ' :: (dumpsItems (e2 :: es2) ++ ']' :: rest)) =
          ',' :: ' ' :: (dumpsItems (e2 :: es2) ++ ']' :: rest) from
        skipWs_cons_of_not ',' _ (by decide)]
      simp only []
      rw [show skipWs (' ' :: (dumpsItems (e2 :: es2) ++ ']' :: rest)) =
          skipWs (dumpsItems (e2 :: es2) ++ ']' :: rest) from rfl,
        skipWs_dumpsItems e2 es2, rt_items e2 es2 f rest (by omega)]
      rfl
termination_by 1 + sizeOf e + sizeOf es

/-- Parsing a rendered member run followed by the closing brace recovers
the members, for any fuel beyond the rendered length. -/
theorem rt_pairs (kv : String × Json) (ms : List (String × Json)) :
    ∀ (fuel : Nat) (rest : List Char),
    (dumpsPairs (kv :: ms)).length + 1 < fuel →
    parsePairs fuel (dumpsPairs (kv :: ms) ++ Char.ofNat 125 :: rest) =
      some (kv :: ms, rest) := by
  obtain ⟨k, v⟩ := kv
  cases ms with
  | nil =>
    intro fuel rest hf
    cases fuel with
    | zero => exact absurd hf (Nat.not_lt_zero _)
    | succ f =>
      have hflen := flatMap_escape_len k.data
      have hlen : (dumpsPairs [(k, v)]).length =
          (k.data.flatMap escapeChar).length + 4 + (dumpsChars v).length := by
        rw [show dumpsPairs [(k, v)] = dumpsString k ++ ':' :: ' ' :: dumpsChars v from rfl,
          dumpsString]
        simp
        omega
      rw [show dumpsPairs [(k, v)] ++ Char.ofNat 125 :: rest =
          '"' :: (k.data.flatMap escapeChar ++ '"' ::
            (':' :: ' ' :: (dumpsChars v ++ Char.ofNat 125 :: rest))) from by
        rw [show dumpsPairs [(k, v)] = dumpsString k ++ ':' :: ' ' :: dumpsChars v from rfl,
          dumpsString]
        simp]
      rw [parsePairs_quote,
        parseStringBody_flat k.data f
          (':' :: ' ' :: (dumpsChars v ++ Char.ofNat 125 :: rest)) (by omega)]
      simp only []
      rw [show skipWs (':' :: ' ' :: (dumpsChars v ++ Char.ofNat 125 :: rest)) =
          ':' :: ' ' :: (dumpsChars v ++ Char.ofNat 125 :: rest) from
        skipWs_cons_of_not ':' _ (by decide)]
      simp only []
      rw [show skipWs (' ' :: (dumpsChars v ++ Char.ofNat 125 :: rest)) =
          skipWs (dumpsChars v ++ Char.ofNat 125 :: rest) from rfl,
        skipWs_dumps v, rt_val v f (Char.ofNat 125 :: rest) (by omega) (by rfl)]
      simp only []
      rw [show skipWs (Char.ofNat 125 :: rest) = Char.ofNat 125 :: rest from
        skipWs_cons_of_not _ _ (by decide)]
      rfl
  | cons m2 ms2 =>
    intro fuel rest hf
    cases fuel with
    | zero => exact absurd hf (Nat.not_lt_zero _)
    | succ f =>
      have hflen := flatMap_escape_len k.data
      have hlen : (dumpsPairs ((k, v) :: m2 :: ms2)).length =
          (k.data.flatMap escapeChar).length + 6 + (dumpsChars v).length +
            (dumpsPairs (m2 :: ms2)).length := by
        rw [show dumpsPairs ((k, v) :: m2 :: ms2) =
          (dumpsString k ++ ':' :: ' ' :: dumpsChars v) ++
            ',' :: ' ' :: dumpsPairs (m2 :: ms2) from rfl, dumpsString]
        simp
        omega
      rw [show dumpsPairs ((k, v) :: m2 :: ms2) ++ Char.ofNat 125 :: rest =
          '"' :: (k.data.flatMap escapeChar ++ '"' ::
            (':' :: ' ' :: (dumpsChars v ++ ',' :: ' ' ::
              (dumpsPairs (m2 :: ms2) ++ Char.ofNat 125 :: rest)))) from by
        rw [show dumpsPairs ((k, v) :: m2 :: ms2) =
          (dumpsString k ++ ':' :: ' ' :: dumpsChars v) ++
            ',' :: ' ' :: dumpsPairs (m2 :: ms2) from rfl, dumpsString]
        simp]
      rw [parsePairs_quote,
        parseStringBody_flat k.data f
          (':' :: ' ' :: (dumpsChars v ++ ',' :: ' ' ::
            (dumpsPairs (m2 :: ms2) ++ Char.ofNat 125 :: rest))) (by omega)]
      simp only []
      rw [show skipWs (':' :: ' ' :: (dumpsChars v ++ ',' :: ' ' ::
            (dumpsPairs (m2 :: ms2) ++ Char.ofNat 125 :: rest))) =
          ':' :: ' ' :: (dumpsChars v ++ ',' :: ' ' ::
            (dumpsPairs (m2 :: ms2) ++ Char.ofNat 125 :: rest)) from
        skipWs_cons_of_not ':' _ (by decide)]
      simp only []
      rw [show skipWs (' ' :: (dumpsChars v ++ ',' :: ' ' ::
            (dumpsPairs (m2 :: ms2) ++ Char.ofNat 125 :: rest))) =
          skipWs (dumpsChars v ++ ',' :: ' ' ::
            (dumpsPairs (m2 :: ms2) ++ Char.ofNat 125 :: rest)) from rfl,
        skipWs_dumps v,
        rt_val v f (',' :: ' ' :: (dumpsPairs (m2 :: ms2) ++ Char.ofNat 125 :: rest))
          (by omega) (by rfl)]
      simp only []
      rw [show skipWs (',' :: ' ' :: (dumpsPairs (m2 :: ms2) ++ Char.ofNat 125 :: rest)) =
          ',' :: ' ' :: (dumpsPairs (m2 :: ms2) ++ Char.ofNat 125 :: rest) from
        skipWs_cons_of_not ',' _ (by decide)]
      simp only []
      rw [show skipWs (' ' :: (dumpsPairs (m2 :: ms2) ++ Char.ofNat 125 :: rest)) =
          skipWs (dumpsPairs (m2 :: ms2) ++ Char.ofNat 125 :: rest) from rfl,
        skipWs_dumpsPairs m2 ms2, rt_pairs m2 ms2 f rest (by omega)]
      rfl
termination_by 1 + sizeOf kv + sizeOf ms
end

/-- The whole-document round trip: json.loads inverts json.dumps on every
JSON value of the embedding. -/
theorem loads_dumps (j : Json) : loads (dumps j) = some j := by
  have h := rt_val j ((dumpsChars j).length + 1) [] (Nat.lt_succ_self _) rfl
  rw [List.append_nil] at h
  unfold loads dumps
  simp only []
  rw [h]
  rfl

/-- Claim C3: normalization passes a string notebook through unchanged and
serializes a structured notebook deterministically with json.dumps; either
way the result is one string. -/
theorem claim_normalize_shape (r : PostNotebookRequest) :
    (∀ s, r.ipynb = Sum.inl s → r.get_ipynb_as_str = s) ∧
    (∀ d, r.ipynb = Sum.inr d → r.get_ipynb_as_str = dumps (Json.obj d)) := by
  constructor
  · intro s hs
    unfold PostNotebookRequest.get_ipynb_as_str
    rw [hs]
  · intro d hd
    unfold PostNotebookRequest.get_ipynb_as_str
    rw [hd]

/-- Witness for C3 at concrete inputs: both arms of the normalizer. -/
theorem claim_normalize_shape_w :
    exReqStr.get_ipynb_as_str = "nb" ∧
    exReqObj.get_ipynb_as_str =
      dumps (Json.obj [("cells", Json.arr [Json.num 3, Json.str "ab"])]) :=
  ⟨(claim_normalize_shape exReqStr).1 "nb" rfl,
    (claim_normalize_shape exReqObj).2 [("cells", Json.arr [Json.num 3, Json.str "ab"])] rfl⟩

/-- Claim C10: parsing the normalized text of a structured notebook back as
JSON recovers the notebook: the serialization round-trips. -/
theorem claim_serialize_round_trip (r : PostNotebookRequest)
    (d : List (String × Json)) (h : r.ipynb = Sum.inr d) :
    loads r.get_ipynb_as_str = some (Json.obj d) := by
  unfold PostNotebookRequest.get_ipynb_as_str
  rw [h]
  exact loads_dumps (Json.obj d)

/-- Witness for C10 at a concrete structured notebook. -/
theorem claim_serialize_round_trip_w :
    loads exReqObj.get_ipynb_as_str =
      some (Json.obj [("cells", Json.arr [Json.num 3, Json.str "ab"])]) :=
  claim_serialize_round_trip exReqObj [("cells", Json.arr [Json.num 3, Json.str "ab"])] rfl

end Noteburst
